import Mathlib

/-!
Verification of the swift-driver build orchestration scripts
(`Utilities/build-script-helper.py`) against their natural-language
specification.  The Python source is shallowly embedded: file-system paths
are lists of path components (the arguments of `os.path.join`), the
observable actions of each installation routine are reified as event
traces, and each external tool invocation is parameterized by the exit
code / output the tool would produce.  Uncaught Python exceptions
(`subprocess.CalledProcessError`, `NameError`) terminate the interpreter
with exit code 1; `sys.exit(n)` terminates with code `n`.
-/

set_option autoImplicit false

namespace SwiftDriverBuild

/-- A file-system path, represented by the list of components handed to
`os.path.join` in the source. -/
abbrev Path := List String

/-- Fixed macOS deployment version constant (source line 17). -/
def macos_deployment_target : String := "10.15"

/-- Shared-library extension.  Source lines 12–15 pick `.dylib` on Darwin
hosts; the CMake build/install flow modelled below only runs for
`-apple-macosx` build targets, i.e. on Darwin. -/
def shared_lib_ext : String := ".dylib"

/-- Static-library extension (source line 16). -/
def static_lib_ext : String := ".a"

/-- Executables copied into the toolchain (source line 28). -/
def executables_to_install : List String :=
  ["swift-driver", "swift-help", "swift-build-sdk-interfaces"]

/-- Helper for `strIn`: does `nee` occur contiguously inside `hay`? -/
def strInAux (nee : List Char) : List Char → Bool
  | [] => nee.isEmpty
  | c :: t => nee.isPrefixOf (c :: t) || strInAux nee t

/-- Python's substring test `sub in s`. -/
def strIn (sub s : String) : Bool := strInAux sub.toList s.toList

/-! ## Target resolution (main, source lines 636–643) -/

/-- Outcome of the cross-compile host resolution in `main`. -/
inductive ResolveOutcome where
  /-- Resolution succeeded; these are the (possibly rewritten) cross-compile hosts. -/
  | ok (hosts : List String)
  /-- `error(message)` ran: the message is printed and the process exits with code 1. -/
  | configError (msg : String)
  /-- A `NameError` was raised: the interpreter dies with a traceback, exit code 1,
  without ever printing the intended configuration-error message. -/
  | nameError
deriving DecidableEq

/-- Source lines 636–643.  The last branch executes
`error("cannot cross-compile for %s" % cross_compile_hosts)`, but
`cross_compile_hosts` is an undefined name in `main` (the attribute is
`args.cross_compile_hosts`), so evaluating the argument raises `NameError`
before `error` can run. -/
def resolveCrossCompileHosts (build_target : String)
    (cross_compile_hosts : List String) : ResolveOutcome :=
  if build_target == "x86_64-apple-macosx" && cross_compile_hosts.contains "macosx-arm64" then
    .ok [build_target ++ macos_deployment_target,
         "arm64-apple-macosx" ++ macos_deployment_target]
  else if build_target == "arm64-apple-macosx" && cross_compile_hosts.contains "macosx-x86_64" then
    .ok [build_target ++ macos_deployment_target,
         "x86_64-apple-macosx" ++ macos_deployment_target]
  else if !cross_compile_hosts.isEmpty && strIn "android-" (cross_compile_hosts.headD "") then
    .ok cross_compile_hosts
  else if !cross_compile_hosts.isEmpty then
    .nameError
  else
    .ok cross_compile_hosts

/-- Target-list computation of `handle_invocation` (source lines 161–166). -/
def resolveTargets (build_target : String) (cross_compile_hosts : List String) : List String :=
  if !cross_compile_hosts.isEmpty then cross_compile_hosts
  else if strIn "-apple-macosx" build_target then [build_target ++ macos_deployment_target]
  else [build_target]

/-! ## Per-target component builds (`build_using_cmake`, `cmake_build`) -/

/-- The four components built per target (source lines 435–447). -/
inductive Component where
  | llbuild
  | tsc
  | argumentParser
  | swiftDriver
deriving DecidableEq

/-- Build order inside `build_using_cmake` (source lines 435–447):
llbuild, then TSC, then ArgumentParser, then SwiftDriver. -/
def components : List Component := [.llbuild, .tsc, .argumentParser, .swiftDriver]

/-- What the external world does for one `cmake_build` call: the exit codes
and captured outputs of the CMake configure step and of Ninja. -/
structure ToolOutcome where
  cmakeExit : Nat
  cmakeOutput : String
  ninjaExit : Nat
  ninjaStdout : String
  ninjaStderr : String
deriving DecidableEq

/-- One observable external invocation inside the per-target build chain. -/
inductive Step where
  | configure (c : Component)
  | ninja (c : Component)
deriving DecidableEq

/-- Model of `cmake_build` (source lines 512–555) for component `c`:
the pair of the steps actually executed and, when the run dies, the process
exit code.  The CMake configure step runs through `subprocess.check_output`
(line 527): a non-zero exit raises `CalledProcessError`, which is uncaught,
so the interpreter terminates with exit code 1 regardless of CMake's own
code.  The Ninja step (lines 543–553) checks `returncode` explicitly and
calls `sys.exit(ninjaProcess.returncode)`. -/
def cmake_build_run (c : Component) (t : ToolOutcome) : List Step × Option Nat :=
  if t.cmakeExit ≠ 0 then ([.configure c], some 1)
  else if t.ninjaExit ≠ 0 then ([.configure c, .ninja c], some t.ninjaExit)
  else ([.configure c, .ninja c], none)

/-- What `cmake_build` prints on each outcome (ignoring verbose echoes).
A failing configure step surfaces only the interpreter's
`CalledProcessError` traceback line, not the captured CMake output; a
failing Ninja run writes the captured stdout, a marker line, and the
captured stderr (source lines 549–553). -/
def cmake_build_printed (t : ToolOutcome) : List String :=
  if t.cmakeExit ≠ 0 then
    ["subprocess.CalledProcessError: Command returned non-zero exit status " ++
      toString t.cmakeExit]
  else if t.ninjaExit ≠ 0 then
    [t.ninjaStdout, "Ninja invocation failed: ", t.ninjaStderr]
  else []

/-- Sequencing of the four `cmake_build` calls of `build_using_cmake` for a
single target (source lines 435–447): a terminated interpreter runs nothing
further. -/
def runChain (ts : Component → ToolOutcome) : List Component → List Step × Option Nat
  | [] => ([], none)
  | c :: rest =>
    match cmake_build_run c (ts c) with
    | (steps, some code) => (steps, some code)
    | (steps, none) =>
      let rr := runChain ts rest
      (steps ++ rr.1, rr.2)

/-- The per-target build chain of `build_using_cmake`. -/
def build_for_target_run (ts : Component → ToolOutcome) : List Step × Option Nat :=
  runChain ts components

/-- The full step sequence when every tool succeeds. -/
def fullChain (cs : List Component) : List Step :=
  cs.flatMap (fun c => [.configure c, .ninja c])

/-- Model of `subprocess.check_call` / `subprocess.check_output` as used for
lipo (line 286, line 349) and rsync (line 124): a non-zero child exit raises
`CalledProcessError`; the exception is uncaught, so the interpreter exits
with code 1.  Returns the process exit code, `none` when execution
continues. -/
def check_call_exit (returncode : Nat) : Option Nat :=
  if returncode ≠ 0 then some 1 else none

/-- A sample external-world behavior: every configure step succeeds and
every Ninja run fails with exit code 7. -/
def sampleNinjaFailure : Component → ToolOutcome :=
  fun _ => ⟨0, "", 7, "NINJA-OUT", "NINJA-ERR"⟩

/-! ## RPath editing (delete_rpath / add_rpath, source lines 126–150) -/

/-- Modelled from the spec: the external binary-metadata editor
(`install_name_tool`) is not part of this repository.  A binary's load
metadata carries runtime search paths without duplicates: `-delete_rpath`
removes the named path, exiting non-zero when it is absent; `-add_rpath`
appends the named path, exiting non-zero when it is already present.
Either failure leaves the binary unchanged.  Result: the new rpath list and
the tool's exit code. -/
def tool_delete_rpath (b : List String) (p : String) : List String × Nat :=
  if p ∈ b then (b.filter (fun q => decide (q ≠ p)), 0) else (b, 1)

/-- Modelled from the spec: the add primitive of the external
binary-metadata editor; see `tool_delete_rpath`. -/
def tool_add_rpath (b : List String) (p : String) : List String × Nat :=
  if p ∈ b then (b, 1) else (b ++ [p], 0)

/-- Observable result of one wrapped rpath edit: the binary's rpath list
afterwards and whether the warning line was printed. -/
structure RpathEdit where
  binary : List String
  warned : Bool
deriving DecidableEq

/-- `delete_rpath` (source lines 126–137): runs the tool, prints a warning
when the tool exits non-zero, and always continues.  The second component
is the process exit code in the same convention as `check_call_exit`
(`none` means execution continues); it is `none` on every input because the
function inspects `returncode` instead of raising. -/
def delete_rpath (b : List String) (p : String) : RpathEdit × Option Nat :=
  let r := tool_delete_rpath b p
  ({ binary := r.1, warned := r.2 != 0 }, none)

/-- `add_rpath` (source lines 139–150): same tolerance as `delete_rpath`. -/
def add_rpath (b : List String) (p : String) : RpathEdit × Option Nat :=
  let r := tool_add_rpath b p
  ({ binary := r.1, warned := r.2 != 0 }, none)

/-! ## Module installation (install_module, source lines 382–391) -/

/-- A shared module directory: filenames are (stem, extension) pairs —
every name `install_module` constructs is `stem + fileext` — mapped to the
identity `(target, extension)` of the per-target build product the file's
bytes came from, or `none` when no such file exists. -/
abbrev ModDir := String × String → Option (String × String)

/-- Remove filename `k` from the directory. -/
def dirErase (d : ModDir) (k : String × String) : ModDir :=
  fun q => if q = k then none else d q

/-- Write content `v` under filename `k`, replacing any existing file. -/
def dirInsert (d : ModDir) (k v : String × String) : ModDir :=
  fun q => if q = k then some v else d q

/-- The module file extensions installed per target (source line 388). -/
def module_fileexts : List String := [".swiftmodule", ".swiftdoc"]

/-- One loop iteration of `install_module` for `target` and `fileext`:
`install_binary` copies the per-target build product
`module_name + fileext` into the shared module directory, then `os.rename`
moves it to `target + fileext` (source lines 389–391). -/
def install_module_step (module_name target fileext : String) (d : ModDir) : ModDir :=
  let d1 := dirInsert d (module_name, fileext) (target, fileext)
  match d1 (module_name, fileext) with
  | some v => dirInsert (dirErase d1 (module_name, fileext)) (target, fileext) v
  | none => d1

/-- `install_module` (source lines 382–391): loops over targets and, per
target, over both file extensions. -/
def install_module (module_name : String) (targets : List String) (d : ModDir) : ModDir :=
  targets.foldl (fun acc target =>
    module_fileexts.foldl (fun acc2 fileext =>
      install_module_step module_name target fileext acc2) acc) d

/-! ## C-module include installation (install_include_artifacts, lines 394–398) -/

/-- The include tree of an install prefix: module directory name mapped to
an abstract snapshot of the directory tree stored there. -/
abbrev IncludeTree := List (String × Nat)

/-- `os.path.exists` on a module include directory. -/
def includeExists (fs : IncludeTree) (name : String) : Bool :=
  fs.any (fun e => e.1 == name)

/-- Content stored under module directory `name`. -/
def includeGet (fs : IncludeTree) (name : String) : Option Nat :=
  (fs.find? (fun e => e.1 == name)).map (fun e => e.2)

/-- `shutil.rmtree(path, ignore_errors=True)`: the subtree is removed. -/
def rmtree (fs : IncludeTree) (name : String) : IncludeTree :=
  fs.filter (fun e => decide (e.1 ≠ name))

/-- `shutil.copytree(src, dst)`: fails when `dst` already exists, otherwise
creates `dst` as a copy of the source tree. -/
def copytree (fs : IncludeTree) (src : Nat) (name : String) : Except Unit IncludeTree :=
  if includeExists fs name then .error () else .ok ((name, src) :: fs)

/-- `install_include_artifacts` (source lines 394–398): delete any existing
copy of the destination subtree, then recursively copy the source into
place. -/
def install_include_artifacts (fs : IncludeTree) (src : Nat) (dst_module_name : String) :
    Except Unit IncludeTree :=
  let fs1 := if includeExists fs dst_module_name then rmtree fs dst_module_name else fs
  copytree fs1 src dst_module_name

/-! ## Coarse build/install phase traces (for the dependency order) -/

/-- Coarse observable actions of the CMake build + install flow. -/
inductive PhaseEvent where
  | buildE (target : String) (c : Component)
  | mergeE (c : Component) (artifact : String)
deriving DecidableEq

/-- The dependency chain of one target's component builds, in order. -/
def depChain (t : String) : List PhaseEvent :=
  [.buildE t .llbuild, .buildE t .tsc, .buildE t .argumentParser, .buildE t .swiftDriver]

/-- `build_using_cmake` (source lines 417–447): per target, llbuild, then
TSC, then ArgumentParser, then SwiftDriver. -/
def build_using_cmake_phases (targets : List String) : List PhaseEvent :=
  targets.flatMap depChain

/-- The lipo merges of one `install_swiftdriver` call (source lines
229–254), in order: universal executables (lines 277–287), then the
driver, TSC, ArgumentParser, and llbuild libraries (lines 313–336), each
labelled with the component whose build products feed it. -/
def install_merge_phases : List PhaseEvent :=
  (executables_to_install.map (fun exe => .mergeE .swiftDriver exe)) ++
  (["libSwiftDriver", "libSwiftOptions", "libSwiftDriverExecution"].map
    (fun l => .mergeE .swiftDriver l)) ++
  (["libTSCBasic", "libTSCUtility"].map (fun l => .mergeE .tsc l)) ++
  (["libArgumentParser", "libArgumentParserToolInfo"].map
    (fun l => .mergeE .argumentParser l)) ++
  (["libllbuildSwift"].map (fun l => .mergeE .llbuild l))

/-- `install` (source lines 223–227): one `install_swiftdriver` per
configured install prefix. -/
def install_phases (prefixCount : Nat) : List PhaseEvent :=
  (List.range prefixCount).flatMap (fun _ => install_merge_phases)

/-- `handle_invocation` for `action = install` on an `-apple-macosx` build
target (source lines 204–207): `build_using_cmake` completes, then
`install` runs. -/
def handle_install_phases (targets : List String) (prefixCount : Nat) : List PhaseEvent :=
  build_using_cmake_phases targets ++ install_phases prefixCount

/-- Is this event a component-build step of target `t`? -/
def isBuildOf (t : String) : PhaseEvent → Bool
  | .buildE t' _ => t' == t
  | _ => false

/-! ## Fine-grained installation traces -/

/-- Fine-grained observable actions of the install routines. -/
inductive Event where
  | deleteRpathE (rpath : Path) (binary : Path)
  | addRpathE (rpath : Path) (binary : Path)
  | lipoE (inputs : List Path) (output : Path)
  | installBinaryE (file : String) (sourceDir : Path) (installDir : Path)
  | swiftpmBuildE
deriving DecidableEq

/-- The per-target architecture-specific binary of an executable
(source lines 262–263). -/
def exeBinPath (build_dir : Path) (cfg exe target : String) : Path :=
  build_dir ++ [target, cfg, "bin", exe]

/-- The per-target input binaries fed to an executable's merge
(source lines 281–284). -/
def exeBinPaths (build_dir : Path) (cfg exe : String) (targets : List String) : List Path :=
  targets.map (exeBinPath build_dir cfg exe)

/-- Rpath edits applied to one executable for one target (source lines
261–275): strip the driver's own build-tree lib directory, strip each
dependency's build-tree lib directory, then add the install-relative
search path. -/
def exe_edit_events (build_dir : Path) (cfg exe target : String) : List Event :=
  [Event.deleteRpathE (build_dir ++ [target, cfg, "lib"])
      (exeBinPath build_dir cfg exe target),
   Event.deleteRpathE
      (build_dir ++ [target, cfg, "dependencies", "swift-tools-support-core", "lib"])
      (exeBinPath build_dir cfg exe target),
   Event.deleteRpathE
      (build_dir ++ [target, cfg, "dependencies", "swift-argument-parser", "lib"])
      (exeBinPath build_dir cfg exe target),
   Event.addRpathE ["@executable_path/../lib/swift/macosx"]
      (exeBinPath build_dir cfg exe target)]

/-- `install_executables` (source lines 258–287): per executable, all
per-target rpath edits, then one lipo merge, then the copy into the
toolchain bin directory. -/
def install_executables_trace (build_dir : Path) (cfg : String)
    (universal_bin_dir toolchain_bin_dir : Path) (targets : List String) : List Event :=
  executables_to_install.flatMap (fun exe =>
    (targets.flatMap (exe_edit_events build_dir cfg exe)) ++
    [Event.lipoE (exeBinPaths build_dir cfg exe targets) (universal_bin_dir ++ [exe]),
     Event.installBinaryE exe universal_bin_dir toolchain_bin_dir])

/-- `install_library` (source lines 339–350): one lipo merge with one
input per target, then the copy into the toolchain lib directory. -/
def install_library_trace (build_dir : Path) (package_subpath : Path) (lib_file : String)
    (universal_lib_dir toolchain_lib_dir : Path) (targets : List String) : List Event :=
  [Event.lipoE (targets.map (fun t => build_dir ++ [t] ++ package_subpath ++ ["lib", lib_file]))
      (universal_lib_dir ++ [lib_file]),
   Event.installBinaryE lib_file universal_lib_dir toolchain_lib_dir]

/-- First fix-up loop of `install_libraries` (source lines 292–298). -/
def lib_phase1_edits (build_dir : Path) (cfg : String) (targets : List String) : List Event :=
  ["libSwiftDriver", "libSwiftDriverExecution"].flatMap (fun lib =>
    targets.map (fun target =>
      Event.deleteRpathE (build_dir ++ [target, cfg, "lib"])
        (build_dir ++ [target, cfg, "lib", lib ++ shared_lib_ext])))

/-- The library files whose TSC / llbuild rpaths are stripped (source
lines 301–302), as a relative directory under the per-target configuration
directory plus a library name. -/
def rpath_fix_libs : List (Path × String) :=
  [(["lib"], "libSwiftDriver"), (["lib"], "libSwiftOptions"),
   (["lib"], "libSwiftDriverExecution"),
   (["dependencies", "swift-tools-support-core", "lib"], "libTSCBasic"),
   (["dependencies", "swift-tools-support-core", "lib"], "libTSCUtility")]

/-- Second fix-up loop of `install_libraries` (source lines 303–311). -/
def lib_phase2_edits (build_dir : Path) (cfg : String) (targets : List String) : List Event :=
  rpath_fix_libs.flatMap (fun libp =>
    targets.flatMap (fun target =>
      ["swift-tools-support-core", "llbuild"].map (fun dep =>
        Event.deleteRpathE (build_dir ++ [target, cfg, "dependencies", dep, "lib"])
          (build_dir ++ ([target, cfg] ++ libp.1 ++ [libp.2 ++ shared_lib_ext])))))

/-- Merge phase of `install_libraries` (source lines 313–336). -/
def lib_merge_trace (build_dir : Path) (cfg : String)
    (universal_lib_dir toolchain_lib_dir : Path) (targets : List String) : List Event :=
  (["libSwiftDriver", "libSwiftOptions", "libSwiftDriverExecution"].flatMap (fun lib =>
    install_library_trace build_dir [cfg] (lib ++ shared_lib_ext)
      universal_lib_dir toolchain_lib_dir targets)) ++
  (["libTSCBasic", "libTSCUtility"].flatMap (fun lib =>
    install_library_trace build_dir [cfg, "dependencies", "swift-tools-support-core"]
      (lib ++ shared_lib_ext) universal_lib_dir toolchain_lib_dir targets)) ++
  ([("libArgumentParser", shared_lib_ext), ("libArgumentParserToolInfo", static_lib_ext)].flatMap
    (fun le =>
      install_library_trace build_dir [cfg, "dependencies", "swift-argument-parser"]
        (le.1 ++ le.2) universal_lib_dir toolchain_lib_dir targets)) ++
  (["libllbuildSwift"].flatMap (fun lib =>
    install_library_trace build_dir [cfg, "dependencies", "llbuild"]
      (lib ++ shared_lib_ext) universal_lib_dir toolchain_lib_dir targets))

/-- `install_libraries` (source lines 290–336): both fix-up loops run to
completion before any merge. -/
def install_libraries_trace (build_dir : Path) (cfg : String)
    (universal_lib_dir toolchain_lib_dir : Path) (targets : List String) : List Event :=
  lib_phase1_edits build_dir cfg targets ++
  lib_phase2_edits build_dir cfg targets ++
  lib_merge_trace build_dir cfg universal_lib_dir toolchain_lib_dir targets

/-- The universal artifact directory of `install_swiftdriver`
(source line 233). -/
def universal_dir (build_dir : Path) : Path :=
  build_dir ++ ["universal-apple-macos" ++ macos_deployment_target]

/-- Executable and library phases of `install_swiftdriver` (source lines
229–254) for one prefix; the remaining phases (binary swift modules, C
include artifacts) perform no rpath edits and no merges. -/
def install_swiftdriver_exe_lib_trace (build_dir : Path) (cfg : String)
    (pfx : Path) (targets : List String) : List Event :=
  install_executables_trace build_dir cfg (universal_dir build_dir ++ ["bin"])
    (pfx ++ ["bin"]) targets ++
  install_libraries_trace build_dir cfg (universal_dir build_dir ++ ["lib"])
    (pfx ++ ["lib", "swift", "macosx"]) targets

/-- `non_darwin_install` (source lines 217–221): copy each executable into
`prefix/bin` for every configured install prefix. -/
def non_darwin_install_trace (prefixes : List Path) (bin_path : Path) : List Event :=
  prefixes.flatMap (fun pfx =>
    executables_to_install.map (fun exe =>
      Event.installBinaryE exe bin_path (pfx ++ ["bin"])))

/-- `handle_invocation` for `action = install` on a non-`apple-macosx`
build target (source lines 208–211): SwiftPM build, then
`non_darwin_install`; no library, module-interface, or header step. -/
def handle_install_non_darwin_trace (prefixes : List Path) (bin_path : Path) : List Event :=
  Event.swiftpmBuildE :: non_darwin_install_trace prefixes bin_path

/-! ## Trace observations -/

/-- The merge-tool invocations of a trace, as (inputs, output) pairs. -/
def lipoCalls (tr : List Event) : List (List Path × Path) :=
  tr.filterMap (fun e => match e with
    | .lipoE ins out => some (ins, out)
    | _ => none)

/-- Modelled from the spec: the external N-input / 1-output
architecture-merge tool (lipo) is not part of this repository; a merge
with zero inputs is an error, otherwise exactly one output file is
produced. -/
def lipo_tool (inputs : List Path) (output : Path) : Except String Path :=
  if inputs.isEmpty then .error "no input files specified" else .ok output

/-- The binaries edited by a trace's rpath edits. -/
def editBinaries (tr : List Event) : List Path :=
  tr.filterMap (fun e => match e with
    | .deleteRpathE _ b => some b
    | .addRpathE _ b => some b
    | _ => none)

/-- The outputs of a trace's merge invocations. -/
def lipoOutputs (tr : List Event) : List Path :=
  (lipoCalls tr).map (fun c => c.2)

/-- Is this event an rpath edit? -/
def isEditE : Event → Bool
  | .deleteRpathE _ _ => true
  | .addRpathE _ _ => true
  | _ => false

/-- Is this event a merge invocation? -/
def isMergeE : Event → Bool
  | .lipoE _ _ => true
  | _ => false

/-- The merged-input accumulator after scanning a trace. -/
def mergedAfter : List Event → List Path → List Path
  | [], m => m
  | (Event.lipoE ins _) :: rest, m => mergedAfter rest (m ++ ins)
  | _ :: rest, m => mergedAfter rest m

/-- Scan a trace in execution order, accumulating the inputs already
consumed by merges: holds when no rpath edit ever touches a binary that an
earlier merge already consumed. -/
def editsPrecedeMerges : List Event → List Path → Prop
  | [], _ => True
  | (Event.deleteRpathE _ b) :: rest, merged => b ∉ merged ∧ editsPrecedeMerges rest merged
  | (Event.addRpathE _ b) :: rest, merged => b ∉ merged ∧ editsPrecedeMerges rest merged
  | (Event.lipoE ins _) :: rest, merged => editsPrecedeMerges rest (merged ++ ins)
  | _ :: rest, merged => editsPrecedeMerges rest merged

/-- The files a trace copies into directory `d`. -/
def copiesInto (d : Path) (tr : List Event) : List String :=
  tr.filterMap (fun e => match e with
    | .installBinaryE f _ dst => if dst = d then some f else none
    | _ => none)

/-- Every path of `m` is the per-target binary of one of the executables
in `exes`. -/
def allExeBins (bd : Path) (cfg : String) (exes : List String) (m : List Path) : Prop :=
  ∀ b ∈ m, ∃ exe ∈ exes, ∃ t, b = exeBinPath bd cfg exe t

end SwiftDriverBuild

namespace SwiftDriverBuild

/-! ## Claim C1: three-branch cross-compile policy -/

/-- C1 (code bug): the first three branches behave as specified — the
opposite-architecture macOS request expands to the fixed two-element
deployment-versioned list, and an android-first host list passes through
verbatim — but an unsupported non-empty host list does not produce the
intended configuration-error message: line 643 reads the undefined name
`cross_compile_hosts` and dies with a `NameError` traceback instead. -/
theorem c1_unsupported_hosts_raise_nameError :
    resolveCrossCompileHosts "x86_64-apple-macosx" ["macosx-arm64"] =
      .ok ["x86_64-apple-macosx10.15", "arm64-apple-macosx10.15"] ∧
    resolveCrossCompileHosts "arm64-apple-macosx" ["macosx-x86_64"] =
      .ok ["arm64-apple-macosx10.15", "x86_64-apple-macosx10.15"] ∧
    resolveCrossCompileHosts "x86_64-unknown-linux-gnu" ["android-aarch64"] =
      .ok ["android-aarch64"] ∧
    resolveCrossCompileHosts "x86_64-apple-macosx" ["riscv64-unknown-linux-gnu"] =
      ResolveOutcome.nameError ∧
    (∀ msg : String,
      resolveCrossCompileHosts "x86_64-apple-macosx" ["riscv64-unknown-linux-gnu"] ≠
        .configError msg) := by
  refine ⟨by decide, by decide, by decide, by decide, ?_⟩
  intro msg h
  rw [show resolveCrossCompileHosts "x86_64-apple-macosx" ["riscv64-unknown-linux-gnu"] =
    ResolveOutcome.nameError from by decide] at h
  exact ResolveOutcome.noConfusion h

/-! ## Claim C9: duplicate entries in the resolved target list -/

/-- C9 counterexample: the android pass-through branch accepts the supplied
host list verbatim, so a duplicated host list yields a resolved target list
with duplicate entries. -/
theorem c9_counterexample :
    resolveCrossCompileHosts "x86_64-unknown-linux-gnu"
        ["android-aarch64", "android-aarch64"] =
      .ok ["android-aarch64", "android-aarch64"] ∧
    ¬ (resolveTargets "x86_64-unknown-linux-gnu"
        ["android-aarch64", "android-aarch64"]).Nodup := by
  constructor
  · decide
  · decide

/-- C9 (amended): whenever the supplied cross-compile host list itself has
no duplicates, every accepted resolution yields a duplicate-free target
list; the macOS expansion branches always do, and the android branch merely
passes the supplied list through. -/
theorem c9_amended_nodup (build_target : String) (hosts hs : List String)
    (hok : resolveCrossCompileHosts build_target hosts = .ok hs)
    (hnd : hosts.Nodup) :
    (resolveTargets build_target hs).Nodup := by
  unfold resolveCrossCompileHosts at hok
  split at hok
  case isTrue h =>
    cases hok
    simp only [Bool.and_eq_true, beq_iff_eq] at h
    obtain ⟨hb, -⟩ := h
    subst hb
    decide
  case isFalse =>
    split at hok
    case isTrue h =>
      cases hok
      simp only [Bool.and_eq_true, beq_iff_eq] at h
      obtain ⟨hb, -⟩ := h
      subst hb
      decide
    case isFalse =>
      split at hok
      case isTrue h =>
        cases hok
        simp only [Bool.and_eq_true] at h
        simp only [resolveTargets, h.1, if_true]
        exact hnd
      case isFalse =>
        split at hok
        case isTrue h' =>
          cases hok
        case isFalse h' =>
          cases hok
          have hnil : hosts = [] := by
            simpa using h'
          subst hnil
          simp only [resolveTargets, List.isEmpty_nil, Bool.not_true,
            Bool.false_eq_true, if_false]
          split <;> simp

/-- Concrete instantiation of `c9_amended_nodup`. -/
theorem c9_amended_nodup_witness :
    (resolveTargets "x86_64-unknown-linux-gnu" ["android-aarch64"]).Nodup :=
  c9_amended_nodup "x86_64-unknown-linux-gnu" ["android-aarch64"]
    ["android-aarch64"] (by decide) (by decide)

/-! ## Claim C2: fail-fast build chain and exit codes -/

/-- The steps a (possibly failed) chain run executes form a prefix of the
full configure/ninja sequence: nothing after the failing step runs. -/
theorem runChain_steps_complete (ts : Component → ToolOutcome) (cs : List Component) :
    ∃ rest, (runChain ts cs).1 ++ rest = fullChain cs := by
  induction cs with
  | nil => exact ⟨[], rfl⟩
  | cons c cs ih =>
    obtain ⟨rest, hrest⟩ := ih
    by_cases h1 : (ts c).cmakeExit ≠ 0
    · refine ⟨Step.ninja c :: fullChain cs, ?_⟩
      simp [runChain, cmake_build_run, h1, fullChain]
    · by_cases h2 : (ts c).ninjaExit ≠ 0
      · refine ⟨fullChain cs, ?_⟩
        simp [runChain, cmake_build_run, h1, h2, fullChain]
      · refine ⟨rest, ?_⟩
        simp [runChain, cmake_build_run, h1, h2, fullChain, List.append_assoc, hrest]

/-- A terminated chain run terminated at some component, with exit code 1
when the configure step failed (uncaught `CalledProcessError`) and with
Ninja's own exit code when Ninja failed. -/
theorem runChain_exit_code (ts : Component → ToolOutcome) (cs : List Component) (k : Nat)
    (h : (runChain ts cs).2 = some k) :
    ∃ c, c ∈ cs ∧ (((ts c).cmakeExit ≠ 0 ∧ k = 1) ∨
      ((ts c).cmakeExit = 0 ∧ (ts c).ninjaExit = k ∧ k ≠ 0)) := by
  induction cs with
  | nil => simp [runChain] at h
  | cons c cs ih =>
    by_cases h1 : (ts c).cmakeExit ≠ 0
    · refine ⟨c, List.mem_cons_self c cs, Or.inl ⟨h1, ?_⟩⟩
      simp [runChain, cmake_build_run, h1] at h
      omega
    · by_cases h2 : (ts c).ninjaExit ≠ 0
      · refine ⟨c, List.mem_cons_self c cs, Or.inr ⟨not_not.mp h1, ?_, ?_⟩⟩
        · simp [runChain, cmake_build_run, h1, h2] at h
          omega
        · simp [runChain, cmake_build_run, h1, h2] at h
          omega
      · obtain ⟨c', hc', hp⟩ := ih (by simpa [runChain, cmake_build_run, h1, h2] using h)
        exact ⟨c', List.mem_cons_of_mem c hc', hp⟩

/-- C2 counterexample: when the CMake configure step for llbuild exits with
code 2, the chain stops immediately, but the interpreter dies from the
uncaught `CalledProcessError` with process exit code 1 — not the failing
tool's code 2 — and the captured configure output is not echoed. -/
theorem c2_counterexample :
    build_for_target_run (fun _ => ⟨2, "CONFIGURE-LOG", 0, "", ""⟩) =
      ([Step.configure Component.llbuild], some 1) ∧
    (1 : Nat) ≠ 2 ∧
    "CONFIGURE-LOG" ∉ cmake_build_printed ⟨2, "CONFIGURE-LOG", 0, "", ""⟩ :=
  ⟨by decide, by decide, by decide⟩

/-- C2 (amended): a non-zero result from CMake configure or Ninja aborts
the per-target chain immediately — the executed steps form a prefix of the
full chain — and a failing lipo (`subprocess.check_call`) is likewise
fatal; but only a Ninja failure surfaces the captured output verbatim and
mirrors the tool's exit code, while a failing CMake configure or lipo kills
the interpreter through an uncaught `CalledProcessError` with process exit
code 1. -/
theorem c2_amended_failure_semantics (ts : Component → ToolOutcome) (k : Nat)
    (hfail : (build_for_target_run ts).2 = some k) :
    (∃ rest, (build_for_target_run ts).1 ++ rest = fullChain components) ∧
    (∃ c, c ∈ components ∧
      (((ts c).cmakeExit ≠ 0 ∧ k = 1) ∨
       ((ts c).cmakeExit = 0 ∧ (ts c).ninjaExit = k ∧ k ≠ 0))) ∧
    (∀ t : ToolOutcome, t.cmakeExit = 0 → t.ninjaExit ≠ 0 →
      t.ninjaStdout ∈ cmake_build_printed t ∧ t.ninjaStderr ∈ cmake_build_printed t) ∧
    (∀ r : Nat, r ≠ 0 → check_call_exit r = some 1) := by
  refine ⟨runChain_steps_complete ts components,
    runChain_exit_code ts components k hfail, ?_, ?_⟩
  · intro t h1 h2
    constructor <;> simp [cmake_build_printed, h1, h2]
  · intro r hr
    simp [check_call_exit, hr]

/-- Concrete instantiation of `c2_amended_failure_semantics`: all configure
steps succeed, every Ninja run exits 7, the process exits 7. -/
theorem c2_amended_failure_semantics_witness :
    (∃ rest, (build_for_target_run sampleNinjaFailure).1 ++ rest = fullChain components) ∧
    (∃ c, c ∈ components ∧
      (((sampleNinjaFailure c).cmakeExit ≠ 0 ∧ 7 = 1) ∨
       ((sampleNinjaFailure c).cmakeExit = 0 ∧ (sampleNinjaFailure c).ninjaExit = 7 ∧ 7 ≠ 0))) ∧
    (∀ t : ToolOutcome, t.cmakeExit = 0 → t.ninjaExit ≠ 0 →
      t.ninjaStdout ∈ cmake_build_printed t ∧ t.ninjaStderr ∈ cmake_build_printed t) ∧
    (∀ r : Nat, r ≠ 0 → check_call_exit r = some 1) :=
  c2_amended_failure_semantics sampleNinjaFailure 7 (by decide)

/-! ## Claim C5: rpath edits are never fatal; deletion is idempotent -/

/-- C5: neither rpath primitive ever terminates the run (their exit-code
component is `none` on every input, in contrast to `check_call_exit`); the
warning is printed exactly when the tool exited non-zero; and deleting the
same runtime search path twice leaves the binary exactly as deleting it
once does, whatever the binary's prior rpath list. -/
theorem c5_rpath_tolerance (b : List String) (p : String) :
    (delete_rpath b p).2 = none ∧
    (add_rpath b p).2 = none ∧
    (delete_rpath (delete_rpath b p).1.binary p).1.binary = (delete_rpath b p).1.binary ∧
    (delete_rpath b p).1.warned = ((tool_delete_rpath b p).2 != 0) ∧
    (add_rpath b p).1.warned = ((tool_add_rpath b p).2 != 0) := by
  refine ⟨rfl, rfl, ?_, rfl, rfl⟩
  by_cases h : p ∈ b
  · have hnot : p ∉ b.filter (fun q => decide (q ≠ p)) := by
      intro hmem
      have h2 := (List.mem_filter.mp hmem).2
      simp at h2
    simp [delete_rpath, tool_delete_rpath, h, hnot]
  · simp [delete_rpath, tool_delete_rpath, h]

/-! ## Claim C8: include installation is replacing and idempotent -/

/-- After `rmtree`, the destination subtree no longer exists. -/
theorem includeExists_rmtree (fs : IncludeTree) (dst : String) :
    includeExists (rmtree fs dst) dst = false := by
  rw [includeExists, List.any_eq_false]
  intro x hx
  have h := (List.mem_filter.mp hx).2
  simp only [decide_eq_true_eq] at h
  simpa using h

/-- Removing the same subtree twice is the same as removing it once. -/
theorem rmtree_rmtree (fs : IncludeTree) (dst : String) :
    rmtree (rmtree fs dst) dst = rmtree fs dst := by
  simp [rmtree, List.filter_filter]

/-- When the destination does not exist, `rmtree` would change nothing. -/
theorem rmtree_of_not_exists (fs : IncludeTree) (dst : String)
    (h : includeExists fs dst = false) : rmtree fs dst = fs := by
  rw [rmtree, List.filter_eq_self]
  intro a ha
  rw [includeExists, List.any_eq_false] at h
  simpa using h a ha

/-- C8: installing a C-interop module's include subtree always succeeds
(the stale copy is deleted first, so `copytree` never hits an existing
destination), afterwards the destination holds exactly the source contents
regardless of the prior state, and running the installation a second time
returns the very same tree. -/
theorem c8_install_include_replacing (fs : IncludeTree) (src : Nat) (dst : String) :
    install_include_artifacts fs src dst = .ok ((dst, src) :: rmtree fs dst) ∧
    includeGet ((dst, src) :: rmtree fs dst) dst = some src ∧
    install_include_artifacts ((dst, src) :: rmtree fs dst) src dst =
      .ok ((dst, src) :: rmtree fs dst) := by
  refine ⟨?_, ?_, ?_⟩
  · rw [install_include_artifacts]
    by_cases h : includeExists fs dst = true
    · simp only [h, if_true]
      rw [copytree, includeExists_rmtree]
      simp
    · have h' : includeExists fs dst = false := by
        revert h
        cases includeExists fs dst <;> simp
      simp only [h', Bool.false_eq_true, if_false]
      rw [copytree]
      rw [h']
      simp [rmtree_of_not_exists fs dst h']
  · simp [includeGet, List.find?]
  · rw [install_include_artifacts]
    have hex : includeExists ((dst, src) :: rmtree fs dst) dst = true := by
      simp [includeExists]
    have hrm : rmtree ((dst, src) :: rmtree fs dst) dst = rmtree fs dst := by
      have h1 : rmtree ((dst, src) :: rmtree fs dst) dst = rmtree (rmtree fs dst) dst := by
        simp [rmtree]
      rw [h1, rmtree_rmtree]
    simp only [hex, if_true, hrm]
    rw [copytree, includeExists_rmtree]
    simp

/-! ## Claim C7: per-target module files coexist -/

/-- C7: installing a module's interface and documentation files for two
distinct targets (whose triples, as always, differ from the bare module
name) leaves, for each extension, one target-triple-qualified file per
target in the shared module directory, each holding that target's own
build product; the two final filenames are distinct, so neither install
overwrites the other's final file. -/
theorem c7_module_installs_coexist (d : ModDir) (M t1 t2 : String)
    (h12 : t1 ≠ t2) (h1 : t1 ≠ M) (h2 : t2 ≠ M) :
    ∀ ext ∈ module_fileexts,
      install_module M [t1, t2] d (t1, ext) = some (t1, ext) ∧
      install_module M [t1, t2] d (t2, ext) = some (t2, ext) ∧
      (t1, ext) ≠ (t2, ext) := by
  intro ext hext
  simp only [module_fileexts, List.mem_cons, List.mem_singleton,
    List.not_mem_nil, or_false] at hext
  rcases hext with rfl | rfl <;>
    refine ⟨?_, ?_, by simp [Prod.mk.injEq, h12]⟩ <;>
      simp [install_module, module_fileexts, install_module_step,
        dirInsert, dirErase, Prod.mk.injEq, h12, h1, h2]

/-- Concrete instantiation of `c7_module_installs_coexist` at the
`.swiftmodule` extension. -/
theorem c7_module_installs_coexist_witness :
    install_module "SwiftDriver" ["x86_64-apple-macosx10.15", "arm64-apple-macosx10.15"]
        (fun _ => none) ("x86_64-apple-macosx10.15", ".swiftmodule") =
      some ("x86_64-apple-macosx10.15", ".swiftmodule") ∧
    install_module "SwiftDriver" ["x86_64-apple-macosx10.15", "arm64-apple-macosx10.15"]
        (fun _ => none) ("arm64-apple-macosx10.15", ".swiftmodule") =
      some ("arm64-apple-macosx10.15", ".swiftmodule") ∧
    (("x86_64-apple-macosx10.15", ".swiftmodule") : String × String) ≠
      ("arm64-apple-macosx10.15", ".swiftmodule") :=
  c7_module_installs_coexist (fun _ => none) "SwiftDriver"
    "x86_64-apple-macosx10.15" "arm64-apple-macosx10.15"
    (by decide) (by decide) (by decide) ".swiftmodule" (by decide)

/-! ## Claim C3: fixed dependency order; builds before merges -/

/-- Every element of `install_merge_phases` is a merge event. -/
theorem mem_install_merge_phases (e : PhaseEvent) (he : e ∈ install_merge_phases) :
    ∃ c a, e = PhaseEvent.mergeE c a := by
  simp only [install_merge_phases, executables_to_install, List.mem_append,
    List.mem_map] at he
  rcases he with ((((⟨a, -, rfl⟩ | ⟨a, -, rfl⟩) | ⟨a, -, rfl⟩) | ⟨a, -, rfl⟩) | ⟨a, -, rfl⟩) <;>
    exact ⟨_, _, rfl⟩

/-- Every element of the build phase trace is a build event. -/
theorem mem_build_phases (targets : List String) (e : PhaseEvent)
    (he : e ∈ build_using_cmake_phases targets) : ∃ t c, e = PhaseEvent.buildE t c := by
  simp only [build_using_cmake_phases, List.mem_flatMap, depChain, List.mem_cons,
    List.not_mem_nil, or_false] at he
  obtain ⟨t, -, he⟩ := he
  rcases he with rfl | rfl | rfl | rfl <;> exact ⟨_, _, rfl⟩

/-- A target absent from the target list contributes no build events. -/
theorem filter_build_phases_not_mem (targets : List String) (t : String)
    (h : t ∉ targets) : (build_using_cmake_phases targets).filter (isBuildOf t) = [] := by
  rw [List.filter_eq_nil_iff]
  intro e he
  rw [build_using_cmake_phases, List.mem_flatMap] at he
  obtain ⟨t', ht', he⟩ := he
  have hne : t' ≠ t := fun hq => h (hq ▸ ht')
  simp only [depChain, List.mem_cons, List.not_mem_nil, or_false] at he
  rcases he with rfl | rfl | rfl | rfl <;> simp [isBuildOf, hne]

/-- The build events of a member target are exactly its dependency chain,
in order. -/
theorem filter_build_phases (targets : List String) (t : String)
    (hnd : targets.Nodup) (ht : t ∈ targets) :
    (build_using_cmake_phases targets).filter (isBuildOf t) = depChain t := by
  induction targets with
  | nil => cases ht
  | cons q rest ih =>
    rw [build_using_cmake_phases, List.flatMap_cons, List.filter_append]
    rw [List.nodup_cons] at hnd
    rcases List.mem_cons.mp ht with rfl | hmem
    · have h2 := filter_build_phases_not_mem rest t hnd.1
      rw [build_using_cmake_phases] at h2
      rw [h2, List.append_nil]
      simp [depChain, isBuildOf]
    · have hne : q ≠ t := fun hq => hnd.1 (hq ▸ hmem)
      have h1 : (depChain q).filter (isBuildOf t) = [] := by
        simp [depChain, isBuildOf, hne]
      have h2 := ih hnd.2 hmem
      rw [build_using_cmake_phases] at h2
      rw [h1, h2, List.nil_append]

/-- The install phases contribute no build events. -/
theorem filter_install_phases (n : Nat) (t : String) :
    (install_phases n).filter (isBuildOf t) = [] := by
  rw [List.filter_eq_nil_iff]
  intro e he
  rw [install_phases, List.mem_flatMap] at he
  obtain ⟨i, -, he⟩ := he
  obtain ⟨c, a, rfl⟩ := mem_install_merge_phases e he
  simp [isBuildOf]

/-- C3: in the install flow, every target of a duplicate-free resolved
target list has its four components built exactly once each, in the fixed
order llbuild, swift-tools-support-core, swift-argument-parser,
swift-driver; and the whole trace splits into the build phase followed by
the merge phase, so every component build for every target completes
before any merge runs. -/
theorem c3_dependency_order (targets : List String) (prefixCount : Nat) (t : String)
    (hnd : targets.Nodup) (ht : t ∈ targets) :
    (handle_install_phases targets prefixCount).filter (isBuildOf t) = depChain t ∧
    ∃ B M, handle_install_phases targets prefixCount = B ++ M ∧
      (∀ e ∈ B, ∃ t' c, e = PhaseEvent.buildE t' c) ∧
      (∀ e ∈ M, ∃ c a, e = PhaseEvent.mergeE c a) := by
  constructor
  · rw [handle_install_phases, List.filter_append, filter_build_phases targets t hnd ht,
      filter_install_phases, List.append_nil]
  · refine ⟨build_using_cmake_phases targets, install_phases prefixCount, rfl,
      fun e he => mem_build_phases targets e he, fun e he => ?_⟩
    rw [install_phases, List.mem_flatMap] at he
    obtain ⟨i, -, he⟩ := he
    exact mem_install_merge_phases e he

/-- Concrete instantiation of `c3_dependency_order`. -/
theorem c3_dependency_order_witness :
    ((handle_install_phases ["arm64-apple-macosx10.15"] 1).filter
      (isBuildOf "arm64-apple-macosx10.15") = depChain "arm64-apple-macosx10.15") ∧
    ∃ B M, handle_install_phases ["arm64-apple-macosx10.15"] 1 = B ++ M ∧
      (∀ e ∈ B, ∃ t' c, e = PhaseEvent.buildE t' c) ∧
      (∀ e ∈ M, ∃ c a, e = PhaseEvent.mergeE c a) :=
  c3_dependency_order ["arm64-apple-macosx10.15"] 1 "arm64-apple-macosx10.15"
    (by decide) (by decide)

/-! ## Claim C4: one merge per artifact, one input per target, fatal on failure -/

/-- Merge invocations distribute over trace concatenation. -/
theorem lipoCalls_append (A B : List Event) :
    lipoCalls (A ++ B) = lipoCalls A ++ lipoCalls B := by
  simp [lipoCalls, List.filterMap_append]

/-- The rpath-edit loop of one executable performs no merge. -/
theorem lipoCalls_exe_edits (build_dir : Path) (cfg exe : String) (ts : List String) :
    lipoCalls (ts.flatMap (exe_edit_events build_dir cfg exe)) = [] := by
  induction ts with
  | nil => rfl
  | cons t ts ih =>
    rw [List.flatMap_cons, lipoCalls_append, ih, List.append_nil]
    rfl

/-- The merge invocations of `install_executables`: exactly one per
executable, each with exactly the per-target input list and one output. -/
theorem lipoCalls_install_executables (build_dir : Path) (cfg : String)
    (ubin tbin : Path) (targets : List String) :
    lipoCalls (install_executables_trace build_dir cfg ubin tbin targets) =
      executables_to_install.map (fun exe =>
        (exeBinPaths build_dir cfg exe targets, ubin ++ [exe])) := by
  rw [install_executables_trace, executables_to_install]
  rw [List.flatMap_cons, List.flatMap_cons, List.flatMap_cons, List.flatMap_nil,
    List.append_nil]
  rw [lipoCalls_append, lipoCalls_append, lipoCalls_append, lipoCalls_append,
    lipoCalls_append]
  rw [lipoCalls_exe_edits, lipoCalls_exe_edits, lipoCalls_exe_edits]
  rfl

/-- The resolved target list is never empty: either the non-empty
cross-compile host list or a one-element list around the build target. -/
theorem resolveTargets_ne_nil (bt : String) (hosts : List String) :
    resolveTargets bt hosts ≠ [] := by
  rw [resolveTargets]
  split
  · next h =>
    intro hc
    rw [hc] at h
    simp at h
  · split <;> simp

/-- C4: `install_executables` invokes lipo exactly once per executable and
`install_library` exactly once per library, in each case with one input
path per resolved target and exactly one universal output; the resolved
target list is never empty, so no merge runs with zero inputs — which the
external merge tool would reject — and a non-zero merge-tool result is
fatal (uncaught `CalledProcessError`). -/
theorem c4_universal_merges (build_dir : Path) (cfg : String) (ubin tbin ulib tlib sub : Path)
    (lib_file : String) (targets : List String) :
    lipoCalls (install_executables_trace build_dir cfg ubin tbin targets) =
      executables_to_install.map (fun exe =>
        (exeBinPaths build_dir cfg exe targets, ubin ++ [exe])) ∧
    lipoCalls (install_library_trace build_dir sub lib_file ulib tlib targets) =
      [(targets.map (fun t => build_dir ++ [t] ++ sub ++ ["lib", lib_file]),
        ulib ++ [lib_file])] ∧
    (∀ ins out,
      (ins, out) ∈ lipoCalls (install_executables_trace build_dir cfg ubin tbin targets) →
      ins.length = targets.length) ∧
    (∀ bt hosts, resolveTargets bt hosts ≠ []) ∧
    (∀ out : Path, lipo_tool [] out = .error "no input files specified") ∧
    (∀ r : Nat, r ≠ 0 → check_call_exit r = some 1) := by
  have h1 := lipoCalls_install_executables build_dir cfg ubin tbin targets
  refine ⟨h1, rfl, ?_, resolveTargets_ne_nil, fun out => rfl,
    fun r hr => by simp [check_call_exit, hr]⟩
  intro ins out hmem
  rw [h1, List.mem_map] at hmem
  obtain ⟨exe, -, heq⟩ := hmem
  injection heq with h5 h6
  rw [← h5]
  simp [exeBinPaths, List.length_map]

/-- Concrete instantiation of `c4_universal_merges`. -/
theorem c4_universal_merges_witness :
    (exeBinPaths ["b"] "release" "swift-driver" ["t1"]).length =
      (["t1"] : List String).length ∧
    check_call_exit 5 = some 1 :=
  ⟨(c4_universal_merges ["b"] "release" ["u"] ["tb"] ["ul"] ["tl"] ["s"]
        "libX.dylib" ["t1"]).2.2.1
      (exeBinPaths ["b"] "release" "swift-driver" ["t1"]) (["u"] ++ ["swift-driver"])
      (by decide),
   (c4_universal_merges ["b"] "release" ["u"] ["tb"] ["ul"] ["tl"] ["s"]
        "libX.dylib" ["t1"]).2.2.2.2.2 5 (by decide)⟩

/-! ## Claim C10: non-darwin install copies exactly the three executables -/

/-- Copies distribute over trace concatenation. -/
theorem copiesInto_append (d : Path) (A B : List Event) :
    copiesInto d (A ++ B) = copiesInto d A ++ copiesInto d B := by
  simp [copiesInto, List.filterMap_append]

/-- A block for a different prefix contributes no copies into `p/bin`. -/
theorem copiesInto_block_ne (bin_path q p : Path) (hne : q ≠ p) :
    copiesInto (p ++ ["bin"]) (executables_to_install.map (fun exe =>
      Event.installBinaryE exe bin_path (q ++ ["bin"]))) = [] := by
  have hd : (q ++ ["bin"] : Path) ≠ p ++ ["bin"] :=
    fun e => hne ((List.append_left_inj _).mp e)
  simp [copiesInto, executables_to_install, hd]

/-- The block for prefix `p` copies exactly the three executables. -/
theorem copiesInto_block_self (bin_path p : Path) :
    copiesInto (p ++ ["bin"]) (executables_to_install.map (fun exe =>
      Event.installBinaryE exe bin_path (p ++ ["bin"]))) = executables_to_install := by
  simp [copiesInto, executables_to_install]

/-- Prefixes not containing `p` contribute no copies into `p/bin`. -/
theorem copiesInto_non_darwin_not_mem (bin_path p : Path) :
    ∀ prefixes : List Path, p ∉ prefixes →
      copiesInto (p ++ ["bin"]) (non_darwin_install_trace prefixes bin_path) = []
  | [], _ => rfl
  | q :: rest, h => by
    rw [non_darwin_install_trace, List.flatMap_cons, copiesInto_append]
    have hq : q ≠ p := fun e => h (e ▸ List.mem_cons_self q rest)
    have hrest : p ∉ rest := fun hm => h (List.mem_cons_of_mem q hm)
    have ih := copiesInto_non_darwin_not_mem bin_path p rest hrest
    rw [non_darwin_install_trace] at ih
    rw [copiesInto_block_ne bin_path q p hq, ih]
    rfl

/-- For every member prefix of a duplicate-free prefix list, the copies
into its bin directory are exactly the three executables. -/
theorem copiesInto_non_darwin_mem (bin_path p : Path) :
    ∀ prefixes : List Path, prefixes.Nodup → p ∈ prefixes →
      copiesInto (p ++ ["bin"]) (non_darwin_install_trace prefixes bin_path) =
        executables_to_install
  | [], _, hp => absurd hp (List.not_mem_nil p)
  | q :: rest, hnd, hp => by
    rw [non_darwin_install_trace, List.flatMap_cons, copiesInto_append]
    rw [List.nodup_cons] at hnd
    rcases List.mem_cons.mp hp with rfl | hmem
    · have h2 := copiesInto_non_darwin_not_mem bin_path p rest hnd.1
      rw [non_darwin_install_trace] at h2
      rw [copiesInto_block_self, h2, List.append_nil]
    · have hq : q ≠ p := fun e => hnd.1 (e ▸ hmem)
      have ih := copiesInto_non_darwin_mem bin_path p rest hnd.2 hmem
      rw [non_darwin_install_trace] at ih
      rw [copiesInto_block_ne bin_path q p hq, ih, List.nil_append]

/-- C10: for a non-`apple-macosx` build target, the install action copies
exactly the three executables swift-driver, swift-help and
swift-build-sdk-interfaces into `prefix/bin` for every configured install
prefix, and every event of the flow is either the SwiftPM build or one of
those executable copies — no library, module-interface, or header
installation occurs. -/
theorem c10_non_darwin_install (prefixes : List Path) (bin_path : Path)
    (hnd : prefixes.Nodup) (p : Path) (hp : p ∈ prefixes) :
    copiesInto (p ++ ["bin"]) (handle_install_non_darwin_trace prefixes bin_path) =
      ["swift-driver", "swift-help", "swift-build-sdk-interfaces"] ∧
    ∀ e ∈ handle_install_non_darwin_trace prefixes bin_path,
      e = Event.swiftpmBuildE ∨
      ∃ exe dst, exe ∈ executables_to_install ∧
        e = Event.installBinaryE exe bin_path dst := by
  constructor
  · have h0 : copiesInto (p ++ ["bin"]) (handle_install_non_darwin_trace prefixes bin_path) =
        copiesInto (p ++ ["bin"]) (non_darwin_install_trace prefixes bin_path) := rfl
    rw [h0, copiesInto_non_darwin_mem bin_path p prefixes hnd hp, executables_to_install]
  · intro e he
    rcases List.mem_cons.mp he with rfl | he
    · exact Or.inl rfl
    · right
      rw [non_darwin_install_trace, List.mem_flatMap] at he
      obtain ⟨pfx, -, he⟩ := he
      rw [List.mem_map] at he
      obtain ⟨exe, hexe, rfl⟩ := he
      exact ⟨exe, pfx ++ ["bin"], hexe, rfl⟩

/-! ## Claim C6: rpath edits happen before merges, never on universal files -/

/-- The merged-input accumulator of a concatenation. -/
theorem mergedAfter_append (A B : List Event) (m : List Path) :
    mergedAfter (A ++ B) m = mergedAfter B (mergedAfter A m) := by
  induction A generalizing m with
  | nil => rfl
  | cons e rest ih => cases e <;> simp [mergedAfter, ih]

/-- The edit-before-merge scan splits over a concatenation. -/
theorem epm_append (A B : List Event) (m : List Path) :
    editsPrecedeMerges (A ++ B) m ↔
      editsPrecedeMerges A m ∧ editsPrecedeMerges B (mergedAfter A m) := by
  induction A generalizing m with
  | nil => simp [editsPrecedeMerges, mergedAfter]
  | cons e rest ih => cases e <;> simp [editsPrecedeMerges, mergedAfter, ih, and_assoc]

/-- A merge-free trace leaves the accumulator unchanged. -/
theorem mergedAfter_no_merge : ∀ (A : List Event) (m : List Path),
    (∀ e ∈ A, isMergeE e = false) → mergedAfter A m = m
  | [], _, _ => rfl
  | e :: rest, m, h => by
    have hrest : ∀ e' ∈ rest, isMergeE e' = false :=
      fun e' h' => h e' (List.mem_cons_of_mem e h')
    cases e <;> first
      | exact mergedAfter_no_merge rest m hrest
      | exact absurd (h _ (List.mem_cons_self _ _)) (by simp [isMergeE])

/-- An edit-free trace passes the scan against any accumulator. -/
theorem epm_no_edit : ∀ (A : List Event),
    (∀ e ∈ A, isEditE e = false) → ∀ m, editsPrecedeMerges A m
  | [], _, _ => trivial
  | e :: rest, h, m => by
    have hrest : ∀ e' ∈ rest, isEditE e' = false :=
      fun e' h' => h e' (List.mem_cons_of_mem e h')
    cases e <;> first
      | exact epm_no_edit rest hrest _
      | exact absurd (h _ (List.mem_cons_self _ _)) (by simp [isEditE])

/-- A merge-free trace passes the scan when none of its edited binaries is
already in the accumulator. -/
theorem epm_edits_block : ∀ (A : List Event) (m : List Path),
    (∀ e ∈ A, isMergeE e = false) → (∀ b ∈ editBinaries A, b ∉ m) →
    editsPrecedeMerges A m
  | [], _, _, _ => trivial
  | e :: rest, m, h, hb => by
    have hrest : ∀ e' ∈ rest, isMergeE e' = false :=
      fun e' h' => h e' (List.mem_cons_of_mem e h')
    cases e with
    | deleteRpathE r b =>
      exact ⟨hb b (List.mem_cons_self _ _),
        epm_edits_block rest m hrest (fun b' hb' => hb b' (List.mem_cons_of_mem b hb'))⟩
    | addRpathE r b =>
      exact ⟨hb b (List.mem_cons_self _ _),
        epm_edits_block rest m hrest (fun b' hb' => hb b' (List.mem_cons_of_mem b hb'))⟩
    | lipoE ins out =>
      exact absurd (h _ (List.mem_cons_self _ _)) (by simp [isMergeE])
    | installBinaryE f s d =>
      exact epm_edits_block rest m hrest (fun b' hb' => hb b' hb')
    | swiftpmBuildE =>
      exact epm_edits_block rest m hrest (fun b' hb' => hb b' hb')

/-- A merge-free trace has no merge invocations. -/
theorem lipoCalls_eq_nil (A : List Event) (h : ∀ e ∈ A, isMergeE e = false) :
    lipoCalls A = [] := by
  rw [lipoCalls, List.filterMap_eq_nil_iff]
  intro e he
  have h' := h e he
  cases e <;> first
    | rfl
    | exact absurd h' (by simp [isMergeE])

/-- An edit-free trace edits no binaries. -/
theorem editBinaries_eq_nil (A : List Event) (h : ∀ e ∈ A, isEditE e = false) :
    editBinaries A = [] := by
  rw [editBinaries, List.filterMap_eq_nil_iff]
  intro e he
  have h' := h e he
  cases e <;> first
    | rfl
    | exact absurd h' (by simp [isEditE])

/-- Edited binaries distribute over trace concatenation. -/
theorem editBinaries_append (A B : List Event) :
    editBinaries (A ++ B) = editBinaries A ++ editBinaries B := by
  simp [editBinaries, List.filterMap_append]

/-- The per-executable edit loop contains no merge. -/
theorem no_merge_exe_edits (bd : Path) (cfg exe : String) (ts : List String) :
    ∀ e ∈ ts.flatMap (exe_edit_events bd cfg exe), isMergeE e = false := by
  intro e he
  rw [List.mem_flatMap] at he
  obtain ⟨t, -, he⟩ := he
  simp only [exe_edit_events, List.mem_cons, List.not_mem_nil, or_false] at he
  rcases he with rfl | rfl | rfl | rfl <;> rfl

/-- Binaries edited by the per-executable edit loop. -/
theorem mem_editBinaries_exe_edits (bd : Path) (cfg exe : String) (ts : List String)
    (b : Path) (hb : b ∈ editBinaries (ts.flatMap (exe_edit_events bd cfg exe))) :
    ∃ t ∈ ts, b = exeBinPath bd cfg exe t := by
  rw [editBinaries, List.filterMap_flatMap, List.mem_flatMap] at hb
  obtain ⟨t, ht, hb⟩ := hb
  refine ⟨t, ht, ?_⟩
  simpa [exe_edit_events] using hb

/-- The first library fix-up loop contains no merge. -/
theorem no_merge_lib_phase1 (bd : Path) (cfg : String) (ts : List String) :
    ∀ e ∈ lib_phase1_edits bd cfg ts, isMergeE e = false := by
  intro e he
  rw [lib_phase1_edits, List.mem_flatMap] at he
  obtain ⟨lib, -, he⟩ := he
  rw [List.mem_map] at he
  obtain ⟨t, -, rfl⟩ := he
  rfl

/-- Binaries edited by the first library fix-up loop. -/
theorem mem_editBinaries_lib_phase1 (bd : Path) (cfg : String) (ts : List String)
    (b : Path) (hb : b ∈ editBinaries (lib_phase1_edits bd cfg ts)) :
    ∃ lib t, b = bd ++ [t, cfg, "lib", lib ++ shared_lib_ext] := by
  rw [editBinaries, lib_phase1_edits, List.filterMap_flatMap, List.mem_flatMap] at hb
  obtain ⟨lib, -, hb⟩ := hb
  rw [List.filterMap_map, List.mem_filterMap] at hb
  obtain ⟨t, -, hb⟩ := hb
  exact ⟨lib, t, by cases hb; rfl⟩

/-- The second library fix-up loop contains no merge. -/
theorem no_merge_lib_phase2 (bd : Path) (cfg : String) (ts : List String) :
    ∀ e ∈ lib_phase2_edits bd cfg ts, isMergeE e = false := by
  intro e he
  rw [lib_phase2_edits, List.mem_flatMap] at he
  obtain ⟨libp, -, he⟩ := he
  rw [List.mem_flatMap] at he
  obtain ⟨t, -, he⟩ := he
  rw [List.mem_map] at he
  obtain ⟨dep, -, rfl⟩ := he
  rfl

/-- Binaries edited by the second library fix-up loop. -/
theorem mem_editBinaries_lib_phase2 (bd : Path) (cfg : String) (ts : List String)
    (b : Path) (hb : b ∈ editBinaries (lib_phase2_edits bd cfg ts)) :
    ∃ libp ∈ rpath_fix_libs, ∃ t,
      b = bd ++ ([t, cfg] ++ libp.1 ++ [libp.2 ++ shared_lib_ext]) := by
  rw [editBinaries, lib_phase2_edits, List.filterMap_flatMap, List.mem_flatMap] at hb
  obtain ⟨libp, hlibp, hb⟩ := hb
  rw [List.filterMap_flatMap, List.mem_flatMap] at hb
  obtain ⟨t, -, hb⟩ := hb
  rw [List.filterMap_map, List.mem_filterMap] at hb
  obtain ⟨dep, -, hb⟩ := hb
  exact ⟨libp, hlibp, t, by cases hb; rfl⟩

/-- The library merge phase performs no edits. -/
theorem no_edit_lib_merge (bd : Path) (cfg : String) (ulib tlib : Path) (ts : List String) :
    ∀ e ∈ lib_merge_trace bd cfg ulib tlib ts, isEditE e = false := by
  intro e he
  rw [lib_merge_trace] at he
  simp only [List.mem_append] at he
  rcases he with ((he | he) | he) | he <;>
    · rw [List.mem_flatMap] at he
      obtain ⟨x, -, he⟩ := he
      simp only [install_library_trace, List.mem_cons, List.not_mem_nil, or_false] at he
      rcases he with rfl | rfl <;> rfl

/-- Every merge invocation of the library merge phase outputs into the
universal lib directory. -/
theorem mem_lipoCalls_lib_merge (bd : Path) (cfg : String) (ulib tlib : Path)
    (ts : List String) (c : List Path × Path)
    (hc : c ∈ lipoCalls (lib_merge_trace bd cfg ulib tlib ts)) :
    ∃ f, c.2 = ulib ++ [f] := by
  rw [lib_merge_trace, lipoCalls_append, lipoCalls_append, lipoCalls_append] at hc
  simp only [List.mem_append] at hc
  rcases hc with ((hc | hc) | hc) | hc <;>
    · rw [lipoCalls, List.filterMap_flatMap, List.mem_flatMap] at hc
      obtain ⟨x, -, hc⟩ := hc
      simp only [install_library_trace, List.filterMap_cons, List.filterMap_nil,
        List.mem_cons, List.not_mem_nil, or_false] at hc
      exact ⟨_, by rw [hc]⟩

/-- Concrete instantiation of `c10_non_darwin_install`. -/
theorem c10_non_darwin_install_witness :
    copiesInto ((["p"] : Path) ++ ["bin"]) (handle_install_non_darwin_trace [["p"]] ["sp"]) =
      ["swift-driver", "swift-help", "swift-build-sdk-interfaces"] ∧
    ∀ e ∈ handle_install_non_darwin_trace [["p"]] ["sp"],
      e = Event.swiftpmBuildE ∨
      ∃ exe dst, exe ∈ executables_to_install ∧
        e = Event.installBinaryE exe ["sp"] dst :=
  c10_non_darwin_install [["p"]] ["sp"] (by decide) ["p"] (by decide)

/-- The [lipo, copy] tail of an executable's block performs no edit. -/
theorem no_edit_exe_merge_block (ins : List Path) (out : Path) (exe : String) (UB TB : Path) :
    ∀ e ∈ [Event.lipoE ins out, Event.installBinaryE exe UB TB], isEditE e = false := by
  intro e he
  simp only [List.mem_cons, List.not_mem_nil, or_false] at he
  rcases he with rfl | rfl <;> rfl

/-- One executable block of `install_executables`: all its edits touch only
its own (not yet merged) per-target binaries, and afterwards the merged
accumulator consists of per-target executable binaries of the processed
executables. -/
theorem epm_exe_block (bd : Path) (cfg : String) (UB TB : Path) (ts : List String)
    (exe : String) (exes : List String) (m : List Path)
    (hm : allExeBins bd cfg exes m) (hne : exe ∉ exes) :
    editsPrecedeMerges
      (ts.flatMap (exe_edit_events bd cfg exe) ++
        [Event.lipoE (exeBinPaths bd cfg exe ts) (UB ++ [exe]),
         Event.installBinaryE exe UB TB]) m ∧
    allExeBins bd cfg (exe :: exes)
      (mergedAfter
        (ts.flatMap (exe_edit_events bd cfg exe) ++
          [Event.lipoE (exeBinPaths bd cfg exe ts) (UB ++ [exe]),
           Event.installBinaryE exe UB TB]) m) := by
  constructor
  · rw [epm_append]
    constructor
    · refine epm_edits_block _ _ (no_merge_exe_edits bd cfg exe ts) ?_
      intro b hb hbm
      obtain ⟨t, -, rfl⟩ := mem_editBinaries_exe_edits bd cfg exe ts b hb
      obtain ⟨exe', hexe', t', heq⟩ := hm _ hbm
      rw [exeBinPath, exeBinPath, List.append_right_inj] at heq
      simp only [List.cons.injEq, and_true] at heq
      exact hne (by rw [heq.2.2.2]; exact hexe')
    · exact epm_no_edit _ (no_edit_exe_merge_block _ _ _ _ _) _
  · rw [mergedAfter_append, mergedAfter_no_merge _ _ (no_merge_exe_edits bd cfg exe ts)]
    intro b hbm
    have hbm' : b ∈ m ++ exeBinPaths bd cfg exe ts := hbm
    rcases List.mem_append.mp hbm' with h | h
    · obtain ⟨exe', he', t', hb⟩ := hm b h
      exact ⟨exe', List.mem_cons_of_mem _ he', t', hb⟩
    · rw [exeBinPaths, List.mem_map] at h
      obtain ⟨t, -, ht⟩ := h
      exact ⟨exe, List.mem_cons_self _ _, t, ht.symm⟩

/-- `install_executables` passes the edit-before-merge scan starting from
an empty accumulator, and afterwards the accumulator holds only per-target
executable binaries. -/
theorem epm_install_executables (bd : Path) (cfg : String) (UB TB : Path) (ts : List String) :
    editsPrecedeMerges (install_executables_trace bd cfg UB TB ts) [] ∧
    ∀ b ∈ mergedAfter (install_executables_trace bd cfg UB TB ts) [],
      ∃ exe t, b = exeBinPath bd cfg exe t := by
  have h0 : allExeBins bd cfg [] [] := fun b hb => absurd hb (List.not_mem_nil b)
  have h1 := epm_exe_block bd cfg UB TB ts "swift-driver" [] [] h0 (List.not_mem_nil _)
  have h2 := epm_exe_block bd cfg UB TB ts "swift-help" ["swift-driver"] _ h1.2 (by decide)
  have h3 := epm_exe_block bd cfg UB TB ts "swift-build-sdk-interfaces"
    ["swift-help", "swift-driver"] _ h2.2 (by decide)
  simp only [install_executables_trace, executables_to_install, List.flatMap_cons,
    List.flatMap_nil, List.append_nil]
  constructor
  · rw [epm_append]
    refine ⟨h1.1, ?_⟩
    rw [epm_append]
    exact ⟨h2.1, h3.1⟩
  · rw [mergedAfter_append, mergedAfter_append]
    intro b hb
    obtain ⟨e, -, t, h⟩ := h3.2 b hb
    exact ⟨e, t, h⟩

/-- Every binary edited by `install_executables` is a per-target
executable binary. -/
theorem mem_editBinaries_install_executables (bd : Path) (cfg : String) (UB TB : Path)
    (ts : List String) (b : Path)
    (hb : b ∈ editBinaries (install_executables_trace bd cfg UB TB ts)) :
    ∃ exe t, b = exeBinPath bd cfg exe t := by
  rw [editBinaries, install_executables_trace, List.filterMap_flatMap, List.mem_flatMap] at hb
  obtain ⟨exe, -, hb⟩ := hb
  rw [List.filterMap_append, List.mem_append] at hb
  rcases hb with hb | hb
  · obtain ⟨t, -, rfl⟩ := mem_editBinaries_exe_edits bd cfg exe ts b hb
    exact ⟨exe, t, rfl⟩
  · simp at hb

/-- `install_libraries` passes the edit-before-merge scan against any
accumulator of per-target executable binaries: its edits strip rpaths of
per-target library binaries only, all before its own merges. -/
theorem epm_install_libraries (bd : Path) (cfg : String) (UL TL : Path) (ts : List String)
    (m : List Path) (hm : ∀ b ∈ m, ∃ exe t, b = exeBinPath bd cfg exe t) :
    editsPrecedeMerges (install_libraries_trace bd cfg UL TL ts) m := by
  rw [install_libraries_trace, epm_append, epm_append]
  refine ⟨⟨?_, ?_⟩, ?_⟩
  · refine epm_edits_block _ _ (no_merge_lib_phase1 bd cfg ts) ?_
    intro b hb hbm
    obtain ⟨lib, t, rfl⟩ := mem_editBinaries_lib_phase1 bd cfg ts b hb
    obtain ⟨exe, t', heq⟩ := hm _ hbm
    rw [exeBinPath, List.append_right_inj] at heq
    simp at heq
  · rw [mergedAfter_no_merge _ _ (no_merge_lib_phase1 bd cfg ts)]
    refine epm_edits_block _ _ (no_merge_lib_phase2 bd cfg ts) ?_
    intro b hb hbm
    obtain ⟨libp, hlibp, t, rfl⟩ := mem_editBinaries_lib_phase2 bd cfg ts b hb
    obtain ⟨exe, t', heq⟩ := hm _ hbm
    simp only [rpath_fix_libs, List.mem_cons, List.not_mem_nil, or_false] at hlibp
    rcases hlibp with rfl | rfl | rfl | rfl | rfl <;>
      · rw [exeBinPath, List.append_right_inj] at heq
        simp at heq
  · rw [mergedAfter_append, mergedAfter_no_merge _ _ (no_merge_lib_phase1 bd cfg ts),
      mergedAfter_no_merge _ _ (no_merge_lib_phase2 bd cfg ts)]
    exact epm_no_edit _ (no_edit_lib_merge bd cfg UL TL ts) _

/-- C6: in the executable and library install phases, every rpath edit of a
binary happens strictly before that binary is consumed by a merge (the scan
over the whole trace passes from an empty accumulator), and no rpath edit
ever touches a merge output — the already-merged universal file. -/
theorem c6_rpath_edits_before_merge (bd : Path) (cfg : String) (pfx : Path)
    (ts : List String) :
    editsPrecedeMerges (install_swiftdriver_exe_lib_trace bd cfg pfx ts) [] ∧
    ∀ b ∈ editBinaries (install_swiftdriver_exe_lib_trace bd cfg pfx ts),
      ∀ o ∈ lipoOutputs (install_swiftdriver_exe_lib_trace bd cfg pfx ts), b ≠ o := by
  have hexe := epm_install_executables bd cfg (universal_dir bd ++ ["bin"])
    (pfx ++ ["bin"]) ts
  constructor
  · rw [install_swiftdriver_exe_lib_trace, epm_append]
    exact ⟨hexe.1, epm_install_libraries bd cfg (universal_dir bd ++ ["lib"])
      (pfx ++ ["lib", "swift", "macosx"]) ts _ hexe.2⟩
  · intro b hb o ho
    have hblen : b.length = bd.length + 4 ∨ b.length = bd.length + 6 := by
      rw [install_swiftdriver_exe_lib_trace, editBinaries_append, List.mem_append] at hb
      rcases hb with hb | hb
      · obtain ⟨exe, t, rfl⟩ := mem_editBinaries_install_executables bd cfg _ _ ts b hb
        left
        simp only [exeBinPath, List.length_append, List.length_cons, List.length_nil]
      · rw [install_libraries_trace, editBinaries_append, editBinaries_append,
          List.mem_append, List.mem_append] at hb
        rcases hb with (hb | hb) | hb
        · obtain ⟨lib, t, rfl⟩ := mem_editBinaries_lib_phase1 bd cfg ts b hb
          left
          simp only [List.length_append, List.length_cons, List.length_nil]
        · obtain ⟨libp, hlibp, t, rfl⟩ := mem_editBinaries_lib_phase2 bd cfg ts b hb
          simp only [rpath_fix_libs, List.mem_cons, List.not_mem_nil, or_false] at hlibp
          rcases hlibp with rfl | rfl | rfl | rfl | rfl
          · left
            simp only [List.length_append, List.length_cons, List.length_nil]
          · left
            simp only [List.length_append, List.length_cons, List.length_nil]
          · left
            simp only [List.length_append, List.length_cons, List.length_nil]
          · right
            simp only [List.length_append, List.length_cons, List.length_nil]
          · right
            simp only [List.length_append, List.length_cons, List.length_nil]
        · rw [editBinaries_eq_nil _ (no_edit_lib_merge bd cfg _ _ ts)] at hb
          exact absurd hb (List.not_mem_nil b)
    have holen : o.length = bd.length + 3 := by
      rw [install_swiftdriver_exe_lib_trace, lipoOutputs, lipoCalls_append,
        List.map_append, List.mem_append] at ho
      rcases ho with ho | ho
      · rw [lipoCalls_install_executables, List.map_map, List.mem_map] at ho
        obtain ⟨exe, -, rfl⟩ := ho
        simp only [Function.comp, universal_dir, List.length_append, List.length_cons,
          List.length_nil]
      · rw [install_libraries_trace, lipoCalls_append, lipoCalls_append,
          lipoCalls_eq_nil _ (no_merge_lib_phase1 bd cfg ts),
          lipoCalls_eq_nil _ (no_merge_lib_phase2 bd cfg ts)] at ho
        simp only [List.nil_append, List.append_nil] at ho
        rw [List.mem_map] at ho
        obtain ⟨c, hc, rfl⟩ := ho
        obtain ⟨f, hf⟩ := mem_lipoCalls_lib_merge bd cfg _ _ ts c hc
        rw [hf]
        simp only [universal_dir, List.length_append, List.length_cons, List.length_nil]
    intro heq
    rw [heq, holen] at hblen
    omega

/-- Concrete instantiation of `c6_rpath_edits_before_merge`: a per-target
executable binary is never a merge output. -/
theorem c6_rpath_edits_before_merge_witness :
    (["b", "t1", "release", "bin", "swift-driver"] : Path) ≠
      (universal_dir ["b"] ++ ["bin"]) ++ ["swift-driver"] :=
  (c6_rpath_edits_before_merge ["b"] "release" ["p"] ["t1"]).2
    ["b", "t1", "release", "bin", "swift-driver"] (by decide)
    ((universal_dir ["b"] ++ ["bin"]) ++ ["swift-driver"]) (by decide)

end SwiftDriverBuild
